import Mathlib

/-!
Verification development for the session-index query layer
(`src/session_index/search.py`).

The Python source is shallowly embedded below: SQLite rows become Lean
structures, tables become lists, SQL `LIKE`/ordering/`LIMIT` clauses become
explicit list operations, and the wall clock is passed in as an explicit
function (`clk n` stands for `(datetime.now() - timedelta(days=n)).isoformat()`).
SQLite compares `TEXT` values bytewise, which on these ASCII ISO timestamps
coincides with the lexicographic order on `List Char`; `LIKE` is
ASCII-case-insensitive, embedded via `Char.toLower`.
-/

namespace SessionIndex

/-! ### Query sanitizer: `_escape_fts_query` (search.py lines 28-65) -/

/-- holds of a character that does not close a quoted span
(the `chars.find` call at search.py:50 scans to the next double quote). -/
def notQuote (c : Char) : Bool := c != '"'

/-- holds of a character that may continue an unquoted token: neither
whitespace nor a double quote (the inner loop at search.py:60). -/
def tokChar (c : Char) : Bool := !c.isWhitespace && (c != '"')

/-- tokenizer loop of `_escape_fts_query` (search.py lines 42-63), written with
explicit fuel so that it is structurally recursive and evaluates in the kernel.
One unit of fuel is spent per loop entry; each entry consumes at least one
character, so `length + 1` fuel always suffices (see `escTokens`).
The three branches mirror the source: skip whitespace; a double quote opens a
span running to the next double quote (or to the end of input if unterminated,
in which case the remainder becomes the literal and the loop stops, here
expressed by `tail` of the empty remainder); otherwise collect an unquoted
token up to the next whitespace or quote and wrap it in double quotes. -/
def escTokensF : Nat → List Char → List (List Char)
  | 0, _ => []
  | _ + 1, [] => []
  | fuel + 1, c :: cs =>
    if c.isWhitespace then
      escTokensF fuel cs
    else if c = '"' then
      ('"' :: (cs.takeWhile notQuote ++ ['"'])) :: escTokensF fuel (cs.dropWhile notQuote).tail
    else
      ('"' :: c :: (cs.takeWhile tokChar ++ ['"'])) :: escTokensF fuel (cs.dropWhile tokChar)

/-- token list produced by `_escape_fts_query` on (already stripped) input. -/
def escTokens (l : List Char) : List (List Char) := escTokensF (l.length + 1) l

/-- embeds `" ".join(tokens)` (search.py:65). -/
def renderToks : List (List Char) → List Char
  | [] => []
  | [t] => t
  | t :: ts => t ++ ' ' :: renderToks ts

/-- embeds Python `str.strip()` (search.py:40): drop whitespace from both ends. -/
def trimChars (l : List Char) : List Char :=
  ((l.dropWhile Char.isWhitespace).reverse.dropWhile Char.isWhitespace).reverse

/-- embeds `_escape_fts_query` (search.py lines 28-65).  The early return for
empty/whitespace-only input (line 35) is subsumed: such input strips to `[]`,
which tokenizes to `[]` and renders to `""`. -/
def escape_fts_query (q : String) : String :=
  String.mk (renderToks (escTokens (trimChars q.data)))

/-- shape invariant of every token `_escape_fts_query` emits: an opening double
quote, a quote-free body, a closing double quote. -/
def WfTok (t : List Char) : Prop := ∃ s, t = '"' :: (s ++ ['"']) ∧ ('"' : Char) ∉ s

/-! ### Data model (schema consumed by search.py; attributes per spec section 3) -/

/-- a row of the `sessions` table, with the columns search.py reads:
the SELECT list at lines 84-86 plus the second project-label column
`s.project` used by the project filters (lines 128, 146). -/
structure Session where
  session_id : String
  project_name : String
  project : String
  title : String
  title_display : String
  client : String
  tags : String
  exchange_count : Nat
  start_time : String
  duration_minutes : Nat
  has_compaction : Bool
deriving DecidableEq

/-- a row of the `session_topics` table (search.py lines 176-179, 228-233). -/
structure TopicRow where
  session_id : String
  topic : String
  captured_at : String
  exchange_number : Option Nat
  source : String
deriving DecidableEq

/-- a row of the `session_tools` table (search.py line 120). -/
structure ToolRow where
  session_id : String
  tool_name : String
  use_count : Nat
deriving DecidableEq

/-- a row of the `session_agents` table (search.py line 124). -/
structure AgentRow where
  session_id : String
  agent_name : String
deriving DecidableEq

/-- the store: one list per table read by search.py. -/
structure DB where
  sessions : List Session
  session_topics : List TopicRow
  session_tools : List ToolRow
  session_agents : List AgentRow
deriving DecidableEq

/-! ### SQLite `LIKE` (default: ASCII-case-insensitive) -/

/-- ASCII lowercasing, SQLite's default `LIKE` case folding. -/
def lowerList (l : List Char) : List Char := l.map Char.toLower

/-- contiguous-substring test, used for `LIKE '%pat%'` patterns. -/
def containsSub : List Char → List Char → Bool
  | [], pat => pat.isEmpty
  | c :: tl, pat => pat.isPrefixOf (c :: tl) || containsSub tl pat

/-- embeds `column LIKE '%pat%'` (case-insensitive contains-anywhere). -/
def likeContains (field pat : String) : Bool :=
  containsSub (lowerList field.data) (lowerList pat.data)

/-- embeds `column LIKE 'pat%'` (case-insensitive prefix match),
as used for the date filter (search.py:132-133) and the partial
session-id lookup (search.py:398-399). -/
def likeStarts (field pat : String) : Bool :=
  (lowerList pat.data).isPrefixOf (lowerList field.data)

/-! ### Predicate builder: `SessionSearch.find` (search.py lines 102-171) -/

/-- the optional criteria of `find`, in the order of its signature
(search.py lines 102-105).  `none` is Python `None`; Python's falsy test
`if client:` etc. also skips the empty string and `days == 0`, which the
guards in `matchesFind` reproduce. -/
structure FindArgs where
  client : Option String
  tag : Option String
  tool : Option String
  agent : Option String
  date : Option String
  week : Bool
  days : Option Nat
  project : Option String
  exclude_project : Option String
  has_compaction : Option Bool
deriving DecidableEq

/-- `find` with every criterion left at its default (all `None`, `week=False`). -/
def noArgs : FindArgs := FindArgs.mk none none none none none false none none none none

/-- the conjunction of WHERE clauses built by `find` (search.py lines 108-153),
evaluated on one session row.  Each branch mirrors one `if crit:` block in the
source, in source order; an absent or falsy criterion contributes `true`
(no clause).  `clk n` is the ISO timestamp of `now - n days`. -/
def matchesFind (clk : Nat → String) (db : DB) (a : FindArgs) (s : Session) : Bool :=
  (match a.client with
   | none => true
   | some c => if c = "" then true else likeContains s.client c) &&
  (match a.tag with
   | none => true
   | some t => if t = "" then true else likeContains s.tags t) &&
  (match a.tool with
   | none => true
   | some t => if t = "" then true else
      db.session_tools.any (fun r => r.session_id == s.session_id && likeContains r.tool_name t)) &&
  (match a.agent with
   | none => true
   | some t => if t = "" then true else
      db.session_agents.any (fun r => r.session_id == s.session_id && likeContains r.agent_name t)) &&
  (match a.project with
   | none => true
   | some p => if p = "" then true else
      (likeContains s.project_name p || likeContains s.project p)) &&
  (match a.date with
   | none => true
   | some d => if d = "" then true else likeStarts s.start_time d) &&
  (if a.week then decide ((clk 7).data ≤ s.start_time.data) else true) &&
  (match a.days with
   | none => true
   | some n => if n = 0 then true else decide ((clk n).data ≤ s.start_time.data)) &&
  (match a.exclude_project with
   | none => true
   | some p => if p = "" then true else
      !(likeContains s.project_name p || likeContains s.project p)) &&
  (match a.has_compaction with
   | none => true
   | some b => s.has_compaction == b)

/-- the two-field project criterion of `find` (search.py lines 127-129):
either project-label column contains the substring, case-insensitively. -/
def projTest (s : Session) (x : String) : Bool :=
  likeContains s.project_name x || likeContains s.project x

/-- `FindArgs` with only `project` supplied. -/
def projArgs (x : String) : FindArgs :=
  FindArgs.mk none none none none none false none (some x) none none

/-- `FindArgs` with only `exclude_project` supplied. -/
def exclArgs (x : String) : FindArgs :=
  FindArgs.mk none none none none none false none none (some x) none

/-- `ORDER BY s.start_time DESC` (search.py:162): `b` may follow `a` when
`a`'s start time is at least `b`'s, comparing text bytewise as SQLite does. -/
def startDescR (a b : Session) : Prop := b.start_time.data ≤ a.start_time.data

instance : DecidableRel startDescR :=
  fun a b => inferInstanceAs (Decidable (b.start_time.data ≤ a.start_time.data))

instance : IsTrans Session startDescR :=
  ⟨fun _ _ _ h1 h2 => le_trans h2 h1⟩

instance : IsTotal Session startDescR :=
  ⟨fun a b => le_total b.start_time.data a.start_time.data⟩

/-- rows in start-time-descending order. -/
def sortByStartDesc (l : List Session) : List Session := List.insertionSort startDescR l

/-! ### Result enricher and topic operations (search.py lines 166-181, 226-235) -/

/-- `ORDER BY captured_at` (ascending), comparing text bytewise. -/
def topicAscR (a b : TopicRow) : Prop := a.captured_at.data ≤ b.captured_at.data

instance : DecidableRel topicAscR :=
  fun a b => inferInstanceAs (Decidable (a.captured_at.data ≤ b.captured_at.data))

instance : IsTrans TopicRow topicAscR :=
  ⟨fun _ _ _ h1 h2 => le_trans h1 h2⟩

instance : IsTotal TopicRow topicAscR :=
  ⟨fun a b => le_total a.captured_at.data b.captured_at.data⟩

/-- a session's topic rows, in capture-time-ascending order. -/
def topicsFor (db : DB) (sid : String) : List TopicRow :=
  List.insertionSort topicAscR (db.session_topics.filter (fun t => t.session_id == sid))

/-- the compact topic form attached to search/find results: only the text and
the source label survive (search.py:229). -/
structure TopicCompact where
  topic : String
  source : String
deriving DecidableEq

/-- embeds `SessionSearch._get_topics` (search.py lines 226-235):
`SELECT topic, source FROM session_topics WHERE session_id = ?
ORDER BY captured_at LIMIT 10`. -/
def get_topics (db : DB) (sid : String) : List TopicCompact :=
  ((topicsFor db sid).take 10).map (fun t => TopicCompact.mk t.topic t.source)

/-- a row of the dedicated topic-timeline operation (search.py lines 176-177):
topic, captured_at, exchange_number, source. -/
structure TopicFull where
  topic : String
  captured_at : String
  exchange_number : Option Nat
  source : String
deriving DecidableEq

/-- embeds `SessionSearch.topics` (search.py lines 173-181): the full timeline,
no 10-item cap, ordered by capture time ascending. -/
def topics (db : DB) (sid : String) : List TopicFull :=
  (topicsFor db sid).map (fun t => TopicFull.mk t.topic t.captured_at t.exchange_number t.source)

/-- a `find` result row: the session columns plus the compact topic list
(search.py lines 166-170). -/
structure FindRow where
  session : Session
  topics : List TopicCompact
deriving DecidableEq

/-- result-shaping step shared by `search` and `find`: attach the compact
topics of the row's own session (search.py lines 96-99 and 166-170). -/
def enrich (db : DB) (s : Session) : FindRow :=
  FindRow.mk s (get_topics db s.session_id)

/-- embeds `SessionSearch.find` (search.py lines 102-171): filter by the
conjunction of supplied criteria, order by start time descending, truncate to
`limit` (the Python default is `limit=20`), then enrich each row. -/
def find (db : DB) (clk : Nat → String) (a : FindArgs) (limit : Nat) : List FindRow :=
  (((db.sessions.filter (matchesFind clk db a)).insertionSort startDescR).take limit).map
    (enrich db)

/-- the Python default for `limit` in `find` (search.py:106). -/
def defaultLimit : Nat := 20

/-- embeds `SessionSearch.recent` (search.py lines 183-185):
`return self.find(limit=n)`. -/
def recent (db : DB) (clk : Nat → String) (n : Nat) : List FindRow :=
  find db clk noArgs n

/-! ### Query executor: `SessionSearch.search` (search.py lines 81-100) -/

/-- a full-text search result row: session columns, engine snippet, compact
topics. -/
structure SearchRow where
  session : Session
  snippet : String
  topics : List TopicCompact
deriving DecidableEq

/-- the error SQLite raises for an empty FTS5 MATCH expression. -/
def emptyMatchErr : String := "fts5: syntax error near empty MATCH expression"

/-- Modelled from the spec: the FTS5 text-search engine behind
`session_content MATCH ?` (search.py:90) is not part of the repository.
Per spec section 9, the engine "would itself reject an empty MATCH expression
as invalid"; for a valid (nonempty) expression its ranked
`(session_id, snippet)` rows are supplied by the `eng` parameter, already in
the engine's native rank order (search.py:91 `ORDER BY rank`). -/
def ftsMatchRows (eng : String → List (String × String)) (q : String) :
    Except String (List (String × String)) :=
  if q = "" then Except.error emptyMatchErr else Except.ok (eng q)

/-- embeds `SessionSearch.search` (search.py lines 81-100): sanitize the query,
run it through the engine, join engine rows to sessions on `session_id`,
truncate to `limit`, and enrich each row with its compact topics.  An engine
error propagates to the caller (the source has no handler around the query). -/
def search (db : DB) (eng : String → List (String × String)) (q : String) (limit : Nat) :
    Except String (List SearchRow) :=
  match ftsMatchRows eng (escape_fts_query q) with
  | Except.error e => Except.error e
  | Except.ok rows =>
      Except.ok ((rows.filterMap (fun r =>
        (db.sessions.find? (fun s => s.session_id == r.fst)).map (fun s =>
          SearchRow.mk s r.snd (get_topics db s.session_id)))).take limit)

/-! ### Session-id prefix resolution (search.py lines 394-405, `topics` command) -/

/-- the prefix test used by the partial-id lookup:
`session_id LIKE '<sid>%'` (search.py:399). -/
def sidTest (sid : String) (s : Session) : Bool := likeStarts s.session_id sid

/-- embeds the partial-session-id resolution in `main` (search.py lines
394-405): an identifier shorter than 36 characters is looked up by prefix with
`fetchone()`, which yields the first matching row in store order, or `none`
(the "No session found" path); a full-length identifier is used as given. -/
def resolveSid (db : DB) (sid : String) : Option String :=
  if sid.length < 36 then
    (db.sessions.find? (sidTest sid)).map (fun s => s.session_id)
  else
    some sid

/-! ### Optional collaborators: stats and context preview (search.py lines
187-201 and 349-360) -/

/-- outcome of a feature backed by an optional collaborator module: either the
collaborator's value, or a normal in-band report that it is missing. -/
inductive FeatureResult (α : Type) where
  | value (a : α)
  | missing (msg : String)

/-- embeds `SessionSearch.stats` (search.py lines 187-201).  The chain of
`try: import ... except ImportError` is embedded as an `Option`al collaborator:
`some g` when an indexer module is importable (its `get_stats` aggregation is
external code, abstracted as `g`), `none` when every import fails, in which
case the source returns the normal dict
`{"error": "SessionIndexer not available"}` instead of raising. -/
def stats (α : Type) (getStats : Option (DB → α)) (db : DB) :
    Except String (FeatureResult α) :=
  match getStats with
  | some g => Except.ok (FeatureResult.value (g db))
  | none => Except.ok (FeatureResult.missing "SessionIndexer not available")

/-- embeds the contextual exchange preview of the `search --context` command
(search.py lines 349-360): the analyzer module is an `Option`al collaborator;
when every import path fails the source prints
"(context not available — analyzer module not found)" and continues with the
next result instead of raising. -/
def contextPreview (γ : Type) (getContext : Option (String → String → Nat → γ))
    (sid q : String) : Except String (FeatureResult γ) :=
  match getContext with
  | some g => Except.ok (FeatureResult.value (g sid q 3))
  | none => Except.ok (FeatureResult.missing "(context not available — analyzer module not found)")

/-! ### Concrete fixtures for witnesses and counterexamples -/

/-- a fixed clock: every cutoff computation returns the same old timestamp. -/
def exClk : Nat → String := fun _ => "1970-01-01T00:00:00"

/-- an engine stub returning no rows (never consulted in the cases proved). -/
def exEng : String → List (String × String) := fun _ => []

/-- fixture session for the project-filter and search claims. -/
def sAlpha : Session :=
  Session.mk "aaaa-0001" "Alpha" "alphabet" "alpha title" "Alpha Title" "Acme"
    "research" 3 "2026-01-05T10:00:00" 12 false

/-- one-session store with one topic row. -/
def exDB1 : DB :=
  DB.mk [sAlpha] [TopicRow.mk "aaaa-0001" "kickoff" "a01" (some 1) "auto"] [] []

/-- first of two sessions sharing the id prefix "aaa". -/
def sPre1 : Session :=
  Session.mk "aaa1-0000" "P1" "p1" "t1" "T1" "c1" "" 1 "2026-01-01T08:00:00" 5 false

/-- second of two sessions sharing the id prefix "aaa". -/
def sPre2 : Session :=
  Session.mk "aaa2-0000" "P2" "p2" "t2" "T2" "c2" "" 1 "2026-01-02T08:00:00" 5 false

/-- store in which the shortened id "aaa" is ambiguous. -/
def exDB2 : DB := DB.mk [sPre1, sPre2] [] [] []

/-- earliest of three sessions on three distinct days. -/
def sDay1 : Session :=
  Session.mk "dddd-0001" "Proj" "proj" "day one" "Day One" "Acme" "" 2
    "2026-02-01T09:00:00" 10 false

/-- middle of three sessions on three distinct days. -/
def sDay2 : Session :=
  Session.mk "dddd-0002" "Proj" "proj" "day two" "Day Two" "Acme" "" 2
    "2026-02-02T09:00:00" 10 false

/-- latest of three sessions on three distinct days. -/
def sDay3 : Session :=
  Session.mk "dddd-0003" "Proj" "proj" "day three" "Day Three" "Acme" "" 2
    "2026-02-03T09:00:00" 10 false

/-- three-day store, listed out of order, each session with one topic row. -/
def exDB3 : DB :=
  DB.mk [sDay2, sDay3, sDay1]
    [TopicRow.mk "dddd-0003" "wrap-up" "a01" none "auto",
     TopicRow.mk "dddd-0002" "design" "a01" (some 2) "manual",
     TopicRow.mk "dddd-0001" "kickoff" "a01" none "auto"] [] []

/-- a session whose transcript was compacted. -/
def sComp : Session :=
  Session.mk "cccc-0001" "Proj" "proj" "t" "T" "Acme" "" 4 "2026-03-01T09:00:00" 7 true

/-- one-session store whose only session is compacted. -/
def exDBc : DB := DB.mk [sComp] [] [] []

/-- store holding eleven topic rows for session "T1", listed out of order. -/
def exDBT : DB :=
  DB.mk []
    [TopicRow.mk "T1" "t04" "a04" none "auto", TopicRow.mk "T1" "t11" "a11" none "auto",
     TopicRow.mk "T1" "t01" "a01" none "auto", TopicRow.mk "T1" "t07" "a07" none "auto",
     TopicRow.mk "T1" "t02" "a02" none "auto", TopicRow.mk "T1" "t09" "a09" none "auto",
     TopicRow.mk "T1" "t03" "a03" none "auto", TopicRow.mk "T1" "t10" "a10" none "auto",
     TopicRow.mk "T1" "t05" "a05" none "auto", TopicRow.mk "T1" "t08" "a08" none "auto",
     TopicRow.mk "T1" "t06" "a06" none "auto"] [] []

/-! ## Theorems -/

/-! ### List helper lemmas -/

theorem length_dropWhile {α : Type} (p : α → Bool) (l : List α) :
    (l.dropWhile p).length ≤ l.length := by
  induction l with
  | nil => simp
  | cons a l ih =>
    rw [List.dropWhile_cons]
    by_cases h : p a = true
    · rw [if_pos h]
      exact Nat.le_succ_of_le ih
    · rw [if_neg h]

theorem tail_dropWhile_length {α : Type} (p : α → Bool) (l : List α) :
    ((l.dropWhile p).tail).length ≤ l.length :=
  le_trans (by rw [List.length_tail]; omega) (length_dropWhile p l)

theorem takeWhile_all {α : Type} (p : α → Bool) (l : List α)
    (h : ∀ x ∈ l, p x = true) : l.takeWhile p = l := by
  induction l with
  | nil => rfl
  | cons a l ih =>
    rw [List.takeWhile_cons, if_pos (h a (List.mem_cons_self a l))]
    rw [ih (fun x hx => h x (List.mem_cons_of_mem a hx))]

theorem dropWhile_all {α : Type} (p : α → Bool) (l : List α)
    (h : ∀ x ∈ l, p x = true) : l.dropWhile p = [] := by
  induction l with
  | nil => rfl
  | cons a l ih =>
    rw [List.dropWhile_cons, if_pos (h a (List.mem_cons_self a l))]
    exact ih (fun x hx => h x (List.mem_cons_of_mem a hx))

theorem takeWhile_append_cons {α : Type} (p : α → Bool) (xs : List α) (y : α)
    (ys : List α) (hy : p y = false) :
    (xs ++ y :: ys).takeWhile p = xs.takeWhile p := by
  induction xs with
  | nil => simp [List.takeWhile_cons, hy]
  | cons a xs ih =>
    by_cases h : p a = true <;> simp [List.takeWhile_cons, h, ih]

theorem dropWhile_append_cons {α : Type} (p : α → Bool) (xs : List α) (y : α)
    (ys : List α) (hy : p y = false) :
    (xs ++ y :: ys).dropWhile p = xs.dropWhile p ++ y :: ys := by
  induction xs with
  | nil => simp [List.dropWhile_cons, hy]
  | cons a xs ih =>
    by_cases h : p a = true <;> simp [List.dropWhile_cons, h, ih]

theorem mem_of_mem_dropWhile {α : Type} {p : α → Bool} {l : List α} {x : α}
    (h : x ∈ l.dropWhile p) : x ∈ l := by
  induction l with
  | nil => simp at h
  | cons a l ih =>
    rw [List.dropWhile_cons] at h
    by_cases hp : p a = true
    · rw [if_pos hp] at h
      exact List.mem_cons_of_mem a (ih h)
    · rw [if_neg hp] at h
      exact h

/-! ### Sanitizer lemmas -/

theorem escTokensF_fuel : ∀ (m n : Nat) (l : List Char), l.length < m → l.length < n →
    escTokensF m l = escTokensF n l := by
  intro m
  induction m with
  | zero => intro n l hm _; exact absurd hm (Nat.not_lt_zero _)
  | succ m ih =>
    intro n l hm hn
    cases n with
    | zero => exact absurd hn (Nat.not_lt_zero _)
    | succ n =>
      cases l with
      | nil => rfl
      | cons c cs =>
        have hcs : cs.length < m := by simp only [List.length_cons] at hm; omega
        have hcs' : cs.length < n := by simp only [List.length_cons] at hn; omega
        simp only [escTokensF]
        by_cases hw : c.isWhitespace = true
        · rw [if_pos hw, if_pos hw]
          exact ih n cs hcs hcs'
        · rw [if_neg hw, if_neg hw]
          by_cases hq : c = '"'
          · rw [if_pos hq, if_pos hq]
            have h1 : ((cs.dropWhile notQuote).tail).length < m :=
              lt_of_le_of_lt (tail_dropWhile_length notQuote cs) hcs
            have h2 : ((cs.dropWhile notQuote).tail).length < n :=
              lt_of_le_of_lt (tail_dropWhile_length notQuote cs) hcs'
            rw [ih n _ h1 h2]
          · rw [if_neg hq, if_neg hq]
            have h1 : (cs.dropWhile tokChar).length < m :=
              lt_of_le_of_lt (length_dropWhile tokChar cs) hcs
            have h2 : (cs.dropWhile tokChar).length < n :=
              lt_of_le_of_lt (length_dropWhile tokChar cs) hcs'
            rw [ih n _ h1 h2]

theorem escTokens_cons (c : Char) (cs : List Char) :
    escTokens (c :: cs) =
      if c.isWhitespace then escTokens cs
      else if c = '"' then
        ('"' :: (cs.takeWhile notQuote ++ ['"'])) :: escTokens (cs.dropWhile notQuote).tail
      else
        ('"' :: c :: (cs.takeWhile tokChar ++ ['"'])) :: escTokens (cs.dropWhile tokChar) := by
  show escTokensF (cs.length + 1 + 1) (c :: cs) = _
  simp only [escTokensF]
  by_cases hw : c.isWhitespace = true
  · rw [if_pos hw, if_pos hw]
    rfl
  · rw [if_neg hw, if_neg hw]
    by_cases hq : c = '"'
    · rw [if_pos hq, if_pos hq]
      rw [escTokensF_fuel (cs.length + 1) (((cs.dropWhile notQuote).tail).length + 1) _
        (Nat.lt_succ_of_le (tail_dropWhile_length notQuote cs)) (Nat.lt_succ_self _)]
      rfl
    · rw [if_neg hq, if_neg hq]
      rw [escTokensF_fuel (cs.length + 1) ((cs.dropWhile tokChar).length + 1) _
        (Nat.lt_succ_of_le (length_dropWhile tokChar cs)) (Nat.lt_succ_self _)]
      rfl

theorem escTokens_quote_head (b : List Char) (hb : ('"' : Char) ∉ b) :
    escTokens ('"' :: b) = ['"' :: (b ++ ['"'])] := by
  have hAll : ∀ x ∈ b, notQuote x = true := by
    intro x hx
    simp only [notQuote, bne_iff_ne, ne_eq]
    intro hxq
    exact hb (hxq ▸ hx)
  rw [escTokens_cons, if_neg (by decide), if_pos rfl]
  rw [takeWhile_all notQuote b hAll, dropWhile_all notQuote b hAll]
  rfl

theorem wf_escTokens : ∀ (n : Nat) (l : List Char), l.length ≤ n →
    ∀ t ∈ escTokens l, WfTok t := by
  intro n
  induction n with
  | zero =>
    intro l hl t ht
    have hnil : l = [] := List.length_eq_zero.mp (Nat.le_zero.mp hl)
    subst hnil
    simp [escTokens, escTokensF] at ht
  | succ n ih =>
    intro l hl t ht
    cases l with
    | nil => simp [escTokens, escTokensF] at ht
    | cons c cs =>
      have hcs : cs.length ≤ n := by simp only [List.length_cons] at hl; omega
      rw [escTokens_cons] at ht
      by_cases hw : c.isWhitespace = true
      · rw [if_pos hw] at ht
        exact ih cs hcs t ht
      · rw [if_neg hw] at ht
        by_cases hq : c = '"'
        · rw [if_pos hq] at ht
          rcases List.mem_cons.mp ht with rfl | ht'
          · refine ⟨cs.takeWhile notQuote, rfl, ?_⟩
            intro hmem
            have hcontra := List.mem_takeWhile_imp hmem
            simp [notQuote] at hcontra
          · exact ih _ (le_trans (tail_dropWhile_length notQuote cs) hcs) t ht'
        · rw [if_neg hq] at ht
          rcases List.mem_cons.mp ht with rfl | ht'
          · refine ⟨c :: cs.takeWhile tokChar, by simp, ?_⟩
            intro hmem
            rcases List.mem_cons.mp hmem with hqc | hmem'
            · exact hq hqc.symm
            · have hcontra := List.mem_takeWhile_imp hmem'
              simp [tokChar] at hcontra
          · exact ih _ (le_trans (length_dropWhile tokChar cs) hcs) t ht'

theorem escTokens_render : ∀ (ts : List (List Char)), (∀ t ∈ ts, WfTok t) →
    escTokens (renderToks ts) = ts := by
  intro ts
  induction ts with
  | nil => intro _; rfl
  | cons t ts ih =>
    intro h
    obtain ⟨s, rfl, hs⟩ := h _ (List.mem_cons_self _ ts)
    have hAll : ∀ x ∈ s, notQuote x = true := by
      intro x hx
      simp only [notQuote, bne_iff_ne, ne_eq]
      intro hxq
      exact hs (hxq ▸ hx)
    cases ts with
    | nil =>
      show escTokens ('"' :: (s ++ ['"'])) = ['"' :: (s ++ ['"'])]
      rw [escTokens_cons, if_neg (by decide), if_pos rfl]
      rw [takeWhile_append_cons notQuote s '"' [] rfl, takeWhile_all notQuote s hAll]
      rw [dropWhile_append_cons notQuote s '"' [] rfl, dropWhile_all notQuote s hAll]
      rfl
    | cons u ts' =>
      show escTokens (('"' :: (s ++ ['"'])) ++ ' ' :: renderToks (u :: ts')) =
        ('"' :: (s ++ ['"'])) :: u :: ts'
      rw [List.cons_append, List.append_assoc, List.singleton_append]
      rw [escTokens_cons, if_neg (by decide), if_pos rfl]
      rw [takeWhile_append_cons notQuote s '"' _ rfl, takeWhile_all notQuote s hAll]
      rw [dropWhile_append_cons notQuote s '"' _ rfl, dropWhile_all notQuote s hAll]
      show ('"' :: (s ++ ['"'])) :: escTokens (' ' :: renderToks (u :: ts')) = _
      rw [escTokens_cons, if_pos (by decide)]
      rw [ih (fun v hv => h v (List.mem_cons_of_mem _ hv))]

theorem render_shape : ∀ (ts : List (List Char)) (t : List Char), WfTok t →
    (∀ u ∈ ts, WfTok u) → ∃ m, renderToks (t :: ts) = '"' :: (m ++ ['"']) := by
  intro ts
  induction ts with
  | nil =>
    intro t ht _
    obtain ⟨s, rfl, _⟩ := ht
    exact ⟨s, rfl⟩
  | cons u ts ih =>
    intro t ht hu
    obtain ⟨s, rfl, _⟩ := ht
    obtain ⟨m, hm⟩ :=
      ih u (hu u (List.mem_cons_self u ts)) (fun v hv => hu v (List.mem_cons_of_mem u hv))
    refine ⟨s ++ '"' :: ' ' :: '"' :: m, ?_⟩
    show ('"' :: (s ++ ['"'])) ++ ' ' :: renderToks (u :: ts) = _
    rw [hm]
    simp [List.append_assoc]

theorem trim_wrapped (m : List Char) :
    trimChars ('"' :: (m ++ ['"'])) = '"' :: (m ++ ['"']) := by
  unfold trimChars
  rw [List.dropWhile_cons, if_neg (by decide)]
  have h2 : ('"' :: (m ++ ['"'])).reverse = '"' :: (m.reverse ++ ['"']) := by
    simp
  rw [h2, List.dropWhile_cons, if_neg (by decide), ← h2, List.reverse_reverse]

theorem escape_idem_list (l : List Char) :
    renderToks (escTokens (trimChars (renderToks (escTokens (trimChars l))))) =
    renderToks (escTokens (trimChars l)) := by
  rcases hts : escTokens (trimChars l) with _ | ⟨t, ts'⟩
  · rfl
  · have hwf : ∀ u ∈ (t :: ts'), WfTok u := by
      rw [← hts]
      exact wf_escTokens (trimChars l).length (trimChars l) le_rfl
    obtain ⟨m, hm⟩ := render_shape ts' t (hwf t (List.mem_cons_self t ts'))
      (fun u hu => hwf u (List.mem_cons_of_mem t hu))
    rw [hm, trim_wrapped, ← hm, escTokens_render (t :: ts') hwf]

/-- C8: the sanitizer is idempotent: a second pass over its own output (in
particular over an already double-quoted phrase such as `"hello world"`)
returns that output unchanged, with no re-wrapping. -/
theorem C8_escape_idempotent :
    (∀ q : String, escape_fts_query (escape_fts_query q) = escape_fts_query q) ∧
    escape_fts_query "\"hello world\"" = "\"hello world\"" := by
  constructor
  · intro q
    exact congrArg String.mk (escape_idem_list q.data)
  · rfl

theorem escTokens_unterminated_aux : ∀ (n : Nat) (a b : List Char), a.length ≤ n →
    ('"' : Char) ∉ a → ('"' : Char) ∉ b →
    escTokens (a ++ '"' :: b) = escTokens a ++ ['"' :: (b ++ ['"'])] := by
  intro n
  induction n with
  | zero =>
    intro a b ha _ hb
    have hnil : a = [] := List.length_eq_zero.mp (Nat.le_zero.mp ha)
    subst hnil
    rw [List.nil_append, escTokens_quote_head b hb]
    rfl
  | succ n ih =>
    intro a b ha hqa hb
    cases a with
    | nil =>
      rw [List.nil_append, escTokens_quote_head b hb]
      rfl
    | cons c cs =>
      have hc : ¬ c = '"' := fun hcq => hqa (hcq ▸ List.mem_cons_self c cs)
      have hcs : ('"' : Char) ∉ cs := fun hm => hqa (List.mem_cons_of_mem c hm)
      have hlen : cs.length ≤ n := by simp only [List.length_cons] at ha; omega
      rw [List.cons_append, escTokens_cons, escTokens_cons]
      by_cases hw : c.isWhitespace = true
      · rw [if_pos hw, if_pos hw]
        exact ih cs b hlen hcs hb
      · rw [if_neg hw, if_neg hw, if_neg hc, if_neg hc]
        rw [takeWhile_append_cons tokChar cs '"' b rfl]
        rw [dropWhile_append_cons tokChar cs '"' b rfl]
        rw [ih (cs.dropWhile tokChar) b (le_trans (length_dropWhile tokChar cs) hlen)
          (fun hm => hcs (mem_of_mem_dropWhile hm)) hb]
        rfl

/-- C4: an unterminated double quote never makes the sanitizer fail: the
remainder of the input after the opening quote becomes one literal token
wrapped in double quotes; in particular the input `find "unclosed` sanitizes
to exactly `"find" "unclosed"`. -/
theorem C4_unterminated_quote :
    (∀ (a b : List Char), ('"' : Char) ∉ a → ('"' : Char) ∉ b →
        escTokens (a ++ '"' :: b) = escTokens a ++ ['"' :: (b ++ ['"'])]) ∧
    escape_fts_query "find \"unclosed" = "\"find\" \"unclosed\"" :=
  ⟨fun a b => escTokens_unterminated_aux a.length a b le_rfl, rfl⟩

/-- witness for C4: the general unterminated-quote law applied to the concrete
split `find ` / `unclosed`. -/
theorem C4_unterminated_quote_witness :
    (('"' : Char) ∉ "find ".data ∧ ('"' : Char) ∉ "unclosed".data) ∧
    escTokens ("find ".data ++ '"' :: "unclosed".data) =
      escTokens "find ".data ++ ['"' :: ("unclosed".data ++ ['"'])] :=
  ⟨⟨by decide, by decide⟩,
   C4_unterminated_quote.1 "find ".data "unclosed".data (by decide) (by decide)⟩

theorem trimChars_ws (l : List Char) (h : ∀ x ∈ l, x.isWhitespace = true) :
    trimChars l = [] := by
  unfold trimChars
  rw [dropWhile_all Char.isWhitespace l h]
  rfl

/-- C1 (amended): empty or whitespace-only input sanitizes to the empty
string, but `search` then hands the empty sanitized expression to the
text-search engine, whose rejection of an empty MATCH expression surfaces to
the caller as an error (the source skips no text predicate and catches
nothing). -/
theorem C1_empty_query (q : String) (h : q.data.all Char.isWhitespace = true) :
    escape_fts_query q = "" ∧
    ∀ (db : DB) (eng : String → List (String × String)) (L : Nat),
      search db eng q L = Except.error emptyMatchErr := by
  have hesc : escape_fts_query q = "" := by
    unfold escape_fts_query
    rw [trimChars_ws q.data (List.all_eq_true.mp h)]
    rfl
  refine ⟨hesc, fun db eng L => ?_⟩
  unfold search
  rw [hesc]
  rfl

/-- witness for C1: the amended claim applied to the whitespace-only query
`" "` on a concrete store. -/
theorem C1_empty_query_witness :
    (" ".data.all Char.isWhitespace = true) ∧
    escape_fts_query " " = "" ∧
    search exDB1 exEng " " 5 = Except.error emptyMatchErr :=
  ⟨by decide, (C1_empty_query " " (by decide)).1,
   (C1_empty_query " " (by decide)).2 exDB1 exEng 5⟩

/-- C1 counterexample: a whitespace-only query does surface an engine error to
the caller of `search`, contradicting the claim that such input never does. -/
theorem C1_whitespace_query_error :
    search exDB1 exEng "   " 20 = Except.error emptyMatchErr ∧
    (search exDB1 exEng "   " 20).isOk = false :=
  ⟨rfl, rfl⟩

/-! ### Predicate-builder and executor lemmas -/

theorem matches_noArgs (clk : Nat → String) (db : DB) (s : Session) :
    matchesFind clk db noArgs s = true := rfl

theorem find_noArgs (db : DB) (clk : Nat → String) (L : Nat) :
    find db clk noArgs L = ((sortByStartDesc db.sessions).take L).map (enrich db) := by
  unfold find sortByStartDesc
  rw [List.filter_eq_self.mpr (fun a _ => matches_noArgs clk db a)]

theorem find?_eq_head?_filter {α : Type} (p : α → Bool) (l : List α) :
    l.find? p = (l.filter p).head? := by
  induction l with
  | nil => rfl
  | cons a l ih =>
    by_cases h : p a = true
    · rw [List.find?_cons_of_pos _ h, List.filter_cons_of_pos h]
      rfl
    · rw [List.find?_cons_of_neg _ h, List.filter_cons_of_neg h, ih]

theorem mem_find_iff (db : DB) (clk : Nat → String) (a : FindArgs) (L : Nat)
    (hL : db.sessions.length ≤ L) (s : Session) :
    enrich db s ∈ find db clk a L ↔ s ∈ db.sessions ∧ matchesFind clk db a s = true := by
  unfold find
  have hlen :
      ((db.sessions.filter (matchesFind clk db a)).insertionSort startDescR).length ≤ L := by
    rw [List.length_insertionSort]
    exact le_trans (List.length_filter_le _ _) hL
  rw [List.take_of_length_le hlen]
  constructor
  · intro hmem
    obtain ⟨s', hs', heq⟩ := List.mem_map.mp hmem
    have hss : s' = s := congrArg FindRow.session heq
    subst hss
    exact List.mem_filter.mp ((List.perm_insertionSort startDescR _).mem_iff.mp hs')
  · intro ⟨hmem, hp⟩
    exact List.mem_map_of_mem (enrich db)
      ((List.perm_insertionSort startDescR _).mem_iff.mpr (List.mem_filter.mpr ⟨hmem, hp⟩))

theorem matches_projArgs (clk : Nat → String) (db : DB) (x : String) (s : Session)
    (hx : ¬ x = "") : matchesFind clk db (projArgs x) s = projTest s x := by
  unfold matchesFind projArgs projTest
  simp [hx]

theorem matches_exclArgs (clk : Nat → String) (db : DB) (x : String) (s : Session)
    (hx : ¬ x = "") : matchesFind clk db (exclArgs x) s = !(projTest s x) := by
  unfold matchesFind exclArgs projTest
  simp [hx]

/-- C2 (amended): for every nonempty substring `x`, and a limit at least the
dataset size, `find(project=x)` and `find(exclude_project=x)` partition the
sessions: membership in the first is exactly the two-field case-insensitive
containment test, membership in the second is exactly its negation, and each
session lands in exactly one of the two result sets. -/
theorem C2_project_partition (db : DB) (clk : Nat → String) (x : String) (L : Nat)
    (hx : x ≠ "") (hL : db.sessions.length ≤ L) (s : Session) (hs : s ∈ db.sessions) :
    (enrich db s ∈ find db clk (projArgs x) L ↔ projTest s x = true) ∧
    (enrich db s ∈ find db clk (exclArgs x) L ↔ projTest s x = false) ∧
    Xor' (enrich db s ∈ find db clk (projArgs x) L)
      (enrich db s ∈ find db clk (exclArgs x) L) := by
  have h1 : enrich db s ∈ find db clk (projArgs x) L ↔ projTest s x = true := by
    rw [mem_find_iff db clk _ L hL s, matches_projArgs clk db x s hx]
    simp [hs]
  have h2 : enrich db s ∈ find db clk (exclArgs x) L ↔ projTest s x = false := by
    rw [mem_find_iff db clk _ L hL s, matches_exclArgs clk db x s hx]
    simp [hs]
  refine ⟨h1, h2, ?_⟩
  by_cases hp : projTest s x = true
  · exact Or.inl ⟨h1.mpr hp, fun hc => absurd (h2.mp hc) (by simp [hp])⟩
  · have hp' : projTest s x = false := by revert hp; cases projTest s x <;> simp
    exact Or.inr ⟨h2.mpr hp', fun hc => absurd (h1.mp hc) hp⟩

/-- witness for C2: the partition applied to a one-session store with the
nonempty substring `Alp`. -/
theorem C2_project_partition_witness :
    (("Alp" : String) ≠ "" ∧ exDB1.sessions.length ≤ 3 ∧ sAlpha ∈ exDB1.sessions) ∧
    ((enrich exDB1 sAlpha ∈ find exDB1 exClk (projArgs "Alp") 3 ↔
        projTest sAlpha "Alp" = true) ∧
     (enrich exDB1 sAlpha ∈ find exDB1 exClk (exclArgs "Alp") 3 ↔
        projTest sAlpha "Alp" = false) ∧
     Xor' (enrich exDB1 sAlpha ∈ find exDB1 exClk (projArgs "Alp") 3)
       (enrich exDB1 sAlpha ∈ find exDB1 exClk (exclArgs "Alp") 3)) :=
  ⟨⟨by decide, by decide, by decide⟩,
   C2_project_partition exDB1 exClk "Alp" 3 (by decide) (by decide) sAlpha (by decide)⟩

/-- C2 counterexample: with the empty substring, both `find(project="")` and
`find(exclude_project="")` skip their clause entirely (Python's falsy test at
search.py:127/145), so the same session appears in both result sets — overlap,
hence no partition for that substring. -/
theorem C2_empty_substring_overlap :
    enrich exDB1 sAlpha ∈ find exDB1 exClk (projArgs "") 3 ∧
    enrich exDB1 sAlpha ∈ find exDB1 exClk (exclArgs "") 3 :=
  ⟨by decide, by decide⟩

/-- C5: with zero criteria the filter matches every session, results are the
sessions in start-time-descending order truncated to the limit (Python default
20), the returned count is `min limit size`, returned rows are in descending
start-time order, and on a three-session fixture with limit 2 exactly the two
latest sessions come back, latest first. -/
theorem C5_no_criteria :
    (∀ (db : DB) (clk : Nat → String) (L : Nat),
        find db clk noArgs L = ((sortByStartDesc db.sessions).take L).map (enrich db)) ∧
    (∀ (db : DB) (clk : Nat → String) (L : Nat),
        (find db clk noArgs L).length = min L db.sessions.length) ∧
    (∀ (db : DB) (clk : Nat → String) (L : Nat),
        (find db clk noArgs L).Pairwise
          (fun r1 r2 => r2.session.start_time.data ≤ r1.session.start_time.data)) ∧
    (∀ (db : DB) (clk : Nat → String),
        find db clk noArgs defaultLimit =
          ((sortByStartDesc db.sessions).take 20).map (enrich db)) ∧
    find exDB3 exClk noArgs 2 = [enrich exDB3 sDay3, enrich exDB3 sDay2] := by
  refine ⟨find_noArgs, ?_, ?_, fun db clk => find_noArgs db clk defaultLimit, by decide⟩
  · intro db clk L
    rw [find_noArgs, List.length_map, List.length_take]
    unfold sortByStartDesc
    rw [List.length_insertionSort]
  · intro db clk L
    rw [find_noArgs, List.pairwise_map]
    refine List.Pairwise.sublist (List.take_sublist L _) ?_
    exact List.sorted_insertionSort startDescR db.sessions

/-- C7: `recent(n)` is literally `find` with no criteria and limit `n`: the
`n` latest sessions in start-time-descending order, each enriched with its
topics (checked concretely on the three-day fixture). -/
theorem C7_recent_equiv :
    (∀ (db : DB) (clk : Nat → String) (n : Nat), recent db clk n = find db clk noArgs n) ∧
    (∀ (db : DB) (clk : Nat → String) (n : Nat),
        recent db clk n = ((sortByStartDesc db.sessions).take n).map (enrich db)) ∧
    recent exDB3 exClk 2 = [enrich exDB3 sDay3, enrich exDB3 sDay2] ∧
    recent exDB3 exClk 1 = [FindRow.mk sDay3 [TopicCompact.mk "wrap-up" "auto"]] :=
  ⟨fun _ _ _ => rfl, fun db clk n => find_noArgs db clk n, by decide, by decide⟩

/-- C9: when an optional collaborator is absent (the indexer behind `stats`,
the analyzer behind the contextual exchange preview), the operation still
returns a normal value that reports the absence in-band, and never an error. -/
theorem C9_missing_collaborator :
    (∀ (α : Type) (db : DB),
        stats α none db = Except.ok (FeatureResult.missing "SessionIndexer not available")) ∧
    (∀ (α : Type) (g : Option (DB → α)) (db : DB), (stats α g db).isOk = true) ∧
    (∀ (γ : Type) (sid q : String),
        contextPreview γ none sid q =
          Except.ok (FeatureResult.missing
            "(context not available — analyzer module not found)")) ∧
    (∀ (γ : Type) (g : Option (String → String → Nat → γ)) (sid q : String),
        (contextPreview γ g sid q).isOk = true) := by
  refine ⟨fun _ _ => rfl, ?_, fun _ _ _ => rfl, ?_⟩
  · intro α g db
    cases g <;> rfl
  · intro γ g sid q
    cases g <;> rfl

/-- C3 (amended): a shortened identifier (fewer than 36 characters) resolves
to the `session_id` of the FIRST session whose id matches the prefix, in store
order; no-match yields `none` (a caller-visible outcome), but an ambiguous
prefix is silently resolved to that first match rather than reported. -/
theorem C3_first_match_resolution (db : DB) (sid : String) (h : sid.length < 36) :
    resolveSid db sid =
      ((db.sessions.filter (sidTest sid)).head?).map (fun s => s.session_id) := by
  unfold resolveSid
  rw [if_pos h, find?_eq_head?_filter]

/-- witness for C3: first-match resolution evaluated at the concrete
no-match prefix `zzz` on the two-session store. -/
theorem C3_first_match_resolution_witness :
    ("zzz".length < 36) ∧
    resolveSid exDB2 "zzz" =
      ((exDB2.sessions.filter (sidTest "zzz")).head?).map (fun s => s.session_id) :=
  ⟨by decide, C3_first_match_resolution exDB2 "zzz" (by decide)⟩

/-- C3 counterexample: the prefix `aaa` matches two sessions, yet `resolveSid`
silently returns the first one — the ambiguous condition is not a
caller-visible outcome, contradicting the claim. -/
theorem C3_ambiguous_prefix_silent :
    (exDB2.sessions.filter (sidTest "aaa")).length = 2 ∧
    resolveSid exDB2 "aaa" = some "aaa1-0000" :=
  ⟨by decide, by decide⟩

/-- C6: the compact topic list attached to search/find rows is the dedicated
timeline truncated to 10 entries and projected to text + source; the dedicated
`topics` operation returns every entry (same length as the raw table subset),
in capture-time-ascending order; every `find` row carries exactly the compact
topics of its own session; and on an 11-topic fixture the compact form has 10
entries while the timeline has all 11. -/
theorem C6_topic_cap :
    (∀ (db : DB) (sid : String), (get_topics db sid).length ≤ 10) ∧
    (∀ (db : DB) (sid : String),
        get_topics db sid =
          ((topics db sid).take 10).map (fun t => TopicCompact.mk t.topic t.source)) ∧
    (∀ (db : DB) (sid : String),
        (topics db sid).length =
          (db.session_topics.filter (fun t => t.session_id == sid)).length) ∧
    (∀ (db : DB) (sid : String),
        (topicsFor db sid).Perm (db.session_topics.filter (fun t => t.session_id == sid))) ∧
    (∀ (db : DB) (sid : String),
        (topicsFor db sid).Pairwise (fun a b => a.captured_at.data ≤ b.captured_at.data)) ∧
    (∀ (db : DB) (clk : Nat → String) (a : FindArgs) (L : Nat),
        (find db clk a L).all
          (fun r => decide (r.topics = get_topics db r.session.session_id)) = true) ∧
    ((get_topics exDBT "T1").length = 10 ∧ (topics exDBT "T1").length = 11) := by
  refine ⟨?_, ?_, ?_, ?_, ?_, ?_, by decide, by decide⟩
  · intro db sid
    unfold get_topics
    rw [List.length_map, List.length_take]
    exact inf_le_left
  · intro db sid
    unfold get_topics topics
    rw [← List.map_take, List.map_map]
    rfl
  · intro db sid
    unfold topics topicsFor
    rw [List.length_map, List.length_insertionSort]
  · intro db sid
    exact List.perm_insertionSort topicAscR _
  · intro db sid
    exact List.sorted_insertionSort topicAscR _
  · intro db clk a L
    rw [List.all_eq_true]
    intro r hr
    unfold find at hr
    obtain ⟨s, _, rfl⟩ := List.mem_map.mp hr
    simp [enrich]

/-- C10: a falsy criterion value contributes no filter clause — `days=0` and
the empty string for each of the seven string criteria (and `week=False`,
which is the default) are each equivalent to omitting the criterion — while
the compaction flag alone distinguishes `False` from unset: on a store whose
only session is compacted, `has_compaction=False` filters it out whereas no
criteria returns it. -/
theorem C10_falsy_criteria :
    (∀ (db : DB) (clk : Nat → String) (L : Nat),
        find db clk (FindArgs.mk none none none none none false (some 0) none none none) L =
          find db clk noArgs L) ∧
    (∀ (db : DB) (clk : Nat → String) (L : Nat),
        find db clk (FindArgs.mk (some "") none none none none false none none none none) L =
          find db clk noArgs L) ∧
    (∀ (db : DB) (clk : Nat → String) (L : Nat),
        find db clk (FindArgs.mk none (some "") none none none false none none none none) L =
          find db clk noArgs L) ∧
    (∀ (db : DB) (clk : Nat → String) (L : Nat),
        find db clk (FindArgs.mk none none (some "") none none false none none none none) L =
          find db clk noArgs L) ∧
    (∀ (db : DB) (clk : Nat → String) (L : Nat),
        find db clk (FindArgs.mk none none none (some "") none false none none none none) L =
          find db clk noArgs L) ∧
    (∀ (db : DB) (clk : Nat → String) (L : Nat),
        find db clk (FindArgs.mk none none none none (some "") false none none none none) L =
          find db clk noArgs L) ∧
    (∀ (db : DB) (clk : Nat → String) (L : Nat),
        find db clk (FindArgs.mk none none none none none false none (some "") none none) L =
          find db clk noArgs L) ∧
    (∀ (db : DB) (clk : Nat → String) (L : Nat),
        find db clk (FindArgs.mk none none none none none false none none (some "") none) L =
          find db clk noArgs L) ∧
    find exDBc exClk (FindArgs.mk none none none none none false none none none (some false)) 5
      = [] ∧
    find exDBc exClk noArgs 5 = [enrich exDBc sComp] := by
  refine ⟨?_, ?_, ?_, ?_, ?_, ?_, ?_, ?_, by decide, by decide⟩ <;> intros <;> rfl

end SessionIndex
